import Mathlib

/-!
Verification development for the foil-lab GPS/wind analysis core.

The Python sources under `backend/` are shallowly embedded over `ℚ`
(Python floats are modelled as exact rationals; `a % m` on floats with a
positive modulus is `qmod`).  Pure functions become Lean functions, and the
iterative wind solver's loop becomes structural recursion on the remaining
iteration budget.  External numeric primitives that are not rational
(trigonometric forward azimuth, geodesic distance, numpy standard deviation)
are taken as function parameters, and the external "suspicious segment"
outlier predicate (owned outside this core per the design, its module is not
part of the embedded sources) is a `Bool`-valued parameter over a single
analyzed segment's fields.
-/

namespace FoilLab

/-- Python float `a % m` for a positive modulus `m`: the representative of
`a` modulo `m` lying in `[0, m)`. Used for every `% FULL_CIRCLE_DEGREES`
in the sources. -/
def qmod (a m : ℚ) : ℚ := a - m * ⌊a / m⌋

theorem qmod_nonneg (a : ℚ) : 0 ≤ qmod a 360 := by
  have h := Int.floor_le (a / 360)
  have h2 : (360 : ℚ) * ⌊a / 360⌋ ≤ 360 * (a / 360) := by
    have h360 : (0 : ℚ) ≤ 360 := by norm_num
    exact mul_le_mul_of_nonneg_left h h360
  have h3 : (360 : ℚ) * (a / 360) = a := by ring
  unfold qmod
  linarith [h2, h3.le]

theorem qmod_lt_360 (a : ℚ) : qmod a 360 < 360 := by
  have h := Int.lt_floor_add_one (a / 360)
  have h2 : (360 : ℚ) * (a / 360) < 360 * (⌊a / 360⌋ + 1) := by
    have h360 : (0 : ℚ) < 360 := by norm_num
    exact (mul_lt_mul_left h360).mpr h
  have h3 : (360 : ℚ) * (a / 360) = a := by ring
  unfold qmod
  nlinarith [h2, h3]

/-- Embeds `core.calculations.angle_to_wind`: minimum angle between a travel bearing
and the wind direction, in `[0, 180]`. -/
def angleToWind (bearing wind_direction : ℚ) : ℚ :=
  let b := qmod bearing 360
  let w := qmod wind_direction 360
  let d := |b - w|
  min d (360 - d)

/-- Tack classification values (`'Port'` / `'Starboard'` strings in the code). -/
inductive Tack
  | port
  | starboard
deriving DecidableEq, BEq, Repr

/-- One row of the segments table as the wind estimator consumes it: only the
`bearing` and `distance` columns are read by the solver. -/
structure Seg where
  bearing : ℚ
  distance : ℚ
deriving DecidableEq, Repr

/-- A segment row after `analyze_wind_angles` annotated it with `angle_to_wind`
and `tack`.  (The `direction` Upwind/Downwind column is also added by the code
but every consumer compares `angle_to_wind < 90` directly, so it is omitted.) -/
structure ARow where
  bearing : ℚ
  distance : ℚ
  angle_to_wind : ℚ
  tack : Tack
deriving DecidableEq, BEq, Repr

/-- Embeds `core.calculations.analyze_wind_angles`: annotate every segment with its
angle to the wind and its tack under the hypothesis `w`. -/
def analyzeWindAngles (segs : List Seg) (w : ℚ) : List ARow :=
  segs.map fun s =>
    { bearing := s.bearing
      distance := s.distance
      angle_to_wind := angleToWind s.bearing w
      tack := if qmod (s.bearing - w) 360 ≤ 180 then Tack.port else Tack.starboard }

def portOf (rows : List ARow) : List ARow :=
  rows.filter fun r => r.tack == Tack.port

def starboardOf (rows : List ARow) : List ARow :=
  rows.filter fun r => r.tack == Tack.starboard

/-- Insertion step of a sort of `ℚ` values (ascending), used to model the
sorting inside `np.median`. -/
def insertQ (x : ℚ) : List ℚ → List ℚ
  | [] => [x]
  | y :: ys => if x ≤ y then x :: y :: ys else y :: insertQ x ys

def sortQ : List ℚ → List ℚ
  | [] => []
  | x :: xs => insertQ x (sortQ xs)

/-- Embeds `np.median`: sort the values; the middle one for odd length, the mean of
the two middle ones for even length.  (Only ever applied to nonempty lists in
the embedded code; the `0` default for `[]` is never reached.) -/
def median (xs : List ℚ) : ℚ :=
  let s := sortQ xs
  let n := s.length
  if n = 0 then 0
  else if n % 2 = 1 then s.getD (n / 2) 0
  else (s.getD (n / 2 - 1) 0 + s.getD (n / 2) 0) / 2

/-- Insertion step of a stable sort of analyzed rows by `angle_to_wind`
(ascending), modelling `DataFrame.nsmallest(count, 'angle_to_wind')`. -/
def insertRow (x : ARow) : List ARow → List ARow
  | [] => [x]
  | y :: ys => if x.angle_to_wind ≤ y.angle_to_wind then x :: y :: ys else y :: insertRow x ys

def sortByAngle : List ARow → List ARow
  | [] => []
  | x :: xs => insertRow x (sortByAngle xs)

/-- Embeds `core.wind.algorithms.get_best_pointing_segments` with its fixed default
`min_count = 3`: all rows when there are at most 3, otherwise the
`max(3, int(n * max_fraction))` rows with the smallest `angle_to_wind`
(Python `int` truncation on a nonnegative product is the floor). -/
def bestPointing (max_fraction : ℚ) (rows : List ARow) : List ARow :=
  if rows.length ≤ 3 then rows
  else (sortByAngle rows).take (max 3 (Int.toNat ⌊(rows.length : ℚ) * max_fraction⌋))

/-- The solver parameters of `estimate_wind_direction_iterative` that the
embedding keeps explicit.  `suspicious_angle_threshold` (and the fixed
`MIN_RELIABLE_SEGMENT_LENGTH_METERS`) are consumed only by the external
suspicious-segment predicate and are folded into the `susp` parameter.
Defaults in the code: `min_segment_distance = 50`, `max_iterations = 5`,
`best_attempts_fraction = 0.4`. -/
structure WindParams where
  min_segment_distance : ℚ
  max_iterations : ℕ
  best_attempts_fraction : ℚ
deriving DecidableEq, Repr

/-- Step 2 of one solver iteration: keep the upwind rows
(`angle_to_wind < 90`). -/
def upwindRows (segs : List Seg) (w : ℚ) : List ARow :=
  (analyzeWindAngles segs w).filter fun r => decide (r.angle_to_wind < 90)

/-- Step 3: when any upwind rows remain, drop the ones flagged by the external
suspicious predicate. -/
def suspFiltered (susp : ARow → Bool) (rows : List ARow) : List ARow :=
  if rows.isEmpty then rows else rows.filter fun r => !(susp r)

/-- Step 4: the minimum-distance filter, applied only when
`min_segment_distance > 0` and rows remain. -/
def distFiltered (p : WindParams) (rows : List ARow) : List ARow :=
  if 0 < p.min_segment_distance ∧ rows ≠ [] then
    rows.filter fun r => decide (p.min_segment_distance ≤ r.distance)
  else rows

/-- Steps 1-4 of one solver iteration (and of the final pass): annotate all
segments under wind hypothesis `w`, keep upwind rows, drop suspicious ones,
then apply the minimum-distance filter. -/
def stepFiltered (susp : ARow → Bool) (p : WindParams) (segs : List Seg) (w : ℚ) :
    List ARow :=
  distFiltered p (suspFiltered susp (upwindRows segs w))

/-- The data-sufficiency test of one iteration: at least
`MIN_SEGMENTS_FOR_ESTIMATION = 3` qualifying upwind rows and a nonempty
port and starboard tack. -/
def stepOk (susp : ARow → Bool) (p : WindParams) (segs : List Seg) (w : ℚ) : Bool :=
  let F := stepFiltered susp p segs w
  decide (3 ≤ F.length) && !(portOf F).isEmpty && !(starboardOf F).isEmpty

/-- Steps 5-7 of one iteration: per-tack best-pointing medians and the
adjusted hypothesis `(w - (starboard_median - port_median) / 2) % 360`. -/
def nextWind (susp : ARow → Bool) (p : WindParams) (segs : List Seg) (w : ℚ) : ℚ :=
  let F := stepFiltered susp p segs w
  let port_median :=
    median ((bestPointing p.best_attempts_fraction (portOf F)).map ARow.angle_to_wind)
  let starboard_median :=
    median ((bestPointing p.best_attempts_fraction (starboardOf F)).map ARow.angle_to_wind)
  qmod (w - (starboard_median - port_median) / 2) 360

/-- Outcome of one pass through the solver loop body. -/
inductive IterResult
  | insufficient
  | converged (w : ℚ)
  | oscillating (w : ℚ)
  | proceed (w : ℚ)
deriving DecidableEq, Repr

/-- One iteration of `estimate_wind_direction_iterative` (lines 178-290):
filtering and sufficiency checks, the balance update, then the convergence
test `|new_wind - current_wind| < WIND_CONVERGENCE_THRESHOLD_DEGREES` (1.0)
followed by the oscillation test against the hypothesis from two iterations
prior (`previous_wind`). -/
def iterStep (susp : ARow → Bool) (p : WindParams) (segs : List Seg)
    (w : ℚ) (prev : Option ℚ) : IterResult :=
  if stepOk susp p segs w then
    let nw := nextWind susp p segs w
    if |nw - w| < 1 then IterResult.converged nw
    else if (match prev with
             | some pw => decide (|nw - pw| < 1)
             | none => false) then IterResult.oscillating ((w + nw) / 2)
    else IterResult.proceed nw
  else IterResult.insufficient

/-- Why the solver loop stopped (the code's distinct break/return paths). -/
inductive StopReason
  | converged
  | oscillating
  | insufficientData
  | maxIterations
deriving DecidableEq, Repr

/-- Result of the `for iteration in range(max_iterations)` loop:
`abortFirst` is the `return result` on a first-iteration data failure;
`finished` carries the `current_wind` value that reaches the final pass. -/
inductive LoopOutcome
  | abortFirst
  | finished (reason : StopReason) (wind : ℚ)
deriving DecidableEq, Repr

/-- The solver loop; `fuel` is the remaining iteration budget and `prev` the
hypothesis from two iterations prior (`previous_wind`).  Exhausted fuel is the
loop falling off `range(max_iterations)` keeping the current hypothesis. -/
def solverLoop (susp : ARow → Bool) (p : WindParams) (segs : List Seg) :
    ℕ → Bool → ℚ → Option ℚ → LoopOutcome
  | 0, _, w, _ => LoopOutcome.finished StopReason.maxIterations w
  | fuel + 1, isFirst, w, prev =>
    match iterStep susp p segs w prev with
    | IterResult.insufficient =>
        if isFirst then LoopOutcome.abortFirst
        else LoopOutcome.finished StopReason.insufficientData w
    | IterResult.converged nw => LoopOutcome.finished StopReason.converged nw
    | IterResult.oscillating aw => LoopOutcome.finished StopReason.oscillating aw
    | IterResult.proceed nw => solverLoop susp p segs fuel false nw (some w)

/-- Modelled from the spec: the `WindEstimate` record of `core/wind/models.py`
(module not among the embedded sources); fields per the data model
`{direction, confidence ∈ {low, medium, high}, port_angle|absent,
starboard_angle|absent, port_count ≥ 0, starboard_count ≥ 0, user_provided}`
and the constructor calls in `core/wind/algorithms.py`. -/
structure WindEstimate where
  direction : ℚ
  confidence : String
  user_provided : Bool
  port_angle : Option ℚ
  starboard_angle : Option ℚ
  port_count : ℕ
  starboard_count : ℕ
deriving DecidableEq, Repr

def sumDist (rows : List ARow) : ℚ := (rows.map ARow.distance).sum

/-- The `result` initialized at the top of `estimate_wind_direction_iterative`
and returned on empty input or a first-iteration data failure. -/
def initialEstimate (initial_wind : ℚ) : WindEstimate :=
  { direction := initial_wind
    confidence := "low"
    user_provided := true
    port_angle := none
    starboard_angle := none
    port_count := 0
    starboard_count := 0 }

/-- The final port-tack angle: the median `angle_to_wind` of the port tack's
best-pointing subset, absent when the final filtered port tack is empty. -/
def finalPortAngle (susp : ARow → Bool) (p : WindParams) (segs : List Seg)
    (w : ℚ) : Option ℚ :=
  if (portOf (stepFiltered susp p segs w)).isEmpty then none
  else some (median ((bestPointing p.best_attempts_fraction
      (portOf (stepFiltered susp p segs w))).map ARow.angle_to_wind))

/-- The final starboard-tack angle, analogously. -/
def finalStarboardAngle (susp : ARow → Bool) (p : WindParams) (segs : List Seg)
    (w : ℚ) : Option ℚ :=
  if (starboardOf (stepFiltered susp p segs w)).isEmpty then none
  else some (median ((bestPointing p.best_attempts_fraction
      (starboardOf (stepFiltered susp p segs w))).map ARow.angle_to_wind))

/-- The reported port count: the size of the port best-pointing subset
(`port_best_count` in the code, 0 when the tack is empty). -/
def finalPortCount (susp : ARow → Bool) (p : WindParams) (segs : List Seg)
    (w : ℚ) : ℕ :=
  if (portOf (stepFiltered susp p segs w)).isEmpty then 0
  else (bestPointing p.best_attempts_fraction (portOf (stepFiltered susp p segs w))).length

/-- The reported starboard count, analogously. -/
def finalStarboardCount (susp : ARow → Bool) (p : WindParams) (segs : List Seg)
    (w : ℚ) : ℕ :=
  if (starboardOf (stepFiltered susp p segs w)).isEmpty then 0
  else (bestPointing p.best_attempts_fraction
      (starboardOf (stepFiltered susp p segs w))).length

/-- The confidence derivation (lines 328-341): "low" unless both final tack
angles exist; "high" when the angles differ by less than 20°, both final tacks
have at least `MIN_SEGMENTS_FOR_ESTIMATION = 3` rows, and the filtered upwind
distance total exceeds 500 m; otherwise "medium" when the angles differ by
less than 30°. -/
def finalConfidence (susp : ARow → Bool) (p : WindParams) (segs : List Seg)
    (w : ℚ) : String :=
  match finalPortAngle susp p segs w, finalStarboardAngle susp p segs w with
  | some x, some y =>
      if |x - y| < 20
          ∧ 3 ≤ (portOf (stepFiltered susp p segs w)).length
          ∧ 3 ≤ (starboardOf (stepFiltered susp p segs w)).length
          ∧ 500 < sumDist (stepFiltered susp p segs w) then "high"
      else if |x - y| < 30 then "medium"
      else "low"
  | _, _ => "low"

/-- The final pass of `estimate_wind_direction_iterative` (lines 292-361):
re-filter under the final hypothesis, recompute per-tack best-pointing medians
and counts, and derive the confidence tier. -/
def finalizeEstimate (susp : ARow → Bool) (p : WindParams) (segs : List Seg)
    (w : ℚ) : WindEstimate :=
  { direction := w
    confidence := finalConfidence susp p segs w
    user_provided := false
    port_angle := finalPortAngle susp p segs w
    starboard_angle := finalStarboardAngle susp p segs w
    port_count := finalPortCount susp p segs w
    starboard_count := finalStarboardCount susp p segs w }

/-- Embeds `core.wind.algorithms.estimate_wind_direction_iterative`. -/
def estimateWindDirectionIterative (susp : ARow → Bool) (segs : List Seg)
    (initial_wind : ℚ) (p : WindParams) : WindEstimate :=
  if segs.isEmpty then initialEstimate initial_wind
  else
    match solverLoop susp p segs p.max_iterations true initial_wind none with
    | LoopOutcome.abortFirst => initialEstimate initial_wind
    | LoopOutcome.finished _ w => finalizeEstimate susp p segs w

/-! ### Concrete fixtures used by witnesses and counterexamples -/

/-- A trivially false suspicious predicate (the solver admits any pure
predicate over a single row's fields). -/
def suspNone : ARow → Bool := fun _ => false

/-- The code's default parameters: `min_segment_distance = 50`,
`max_iterations = 5`, `best_attempts_fraction = 0.4`. -/
def pDef : WindParams :=
  { min_segment_distance := 50, max_iterations := 5, best_attempts_fraction := 2/5 }

/-- Six segments, three per tack around wind 100: port bearings 144/147/148,
starboard bearing 55 (three copies), each 100 m. -/
def segsC2 : List Seg :=
  [⟨144, 100⟩, ⟨147, 100⟩, ⟨148, 100⟩, ⟨55, 100⟩, ⟨55, 100⟩, ⟨55, 100⟩]

/-- A pure single-row suspicious predicate targeting the bearing-147 segment
once its angle to the wind drops below 46.5°. -/
def suspC2 : ARow → Bool := fun r => r.bearing == 147 && decide (r.angle_to_wind < 93/2)

/-- One port segment at bearing 45 and three starboard segments at bearing 317:
around wind 359 this drives the next hypothesis across the 0/360 seam to 1. -/
def segsC9 : List Seg := [⟨45, 100⟩, ⟨317, 100⟩, ⟨317, 100⟩, ⟨317, 100⟩]

/-- Port 45.8, starboard 314.8 (three copies): from wind 359.5 the next
hypothesis is 0.3, circularly 0.8 away but 359.2 apart in plain arithmetic. -/
def segsSeam : List Seg :=
  [⟨229/5, 100⟩, ⟨1574/5, 100⟩, ⟨1574/5, 100⟩, ⟨1574/5, 100⟩]

/-- Three port segments at 247 and three starboard at 157, 100 m each:
from wind 200 the next hypothesis is 202. -/
def segsOsc : List Seg :=
  [⟨247, 100⟩, ⟨247, 100⟩, ⟨247, 100⟩, ⟨157, 100⟩, ⟨157, 100⟩, ⟨157, 100⟩]

/-- A symmetric set: three port segments at 145 and three starboard at 55;
at wind 100 both tack medians are 45 and the update returns 100 itself. -/
def segsSym : List Seg :=
  [⟨145, 100⟩, ⟨145, 100⟩, ⟨145, 100⟩, ⟨55, 100⟩, ⟨55, 100⟩, ⟨55, 100⟩]

/-- A single segment: never enough upwind data for estimation. -/
def segsOne : List Seg := [⟨145, 100⟩]

/-- Three segments that all classify as port tack around wind 100. -/
def segsPort : List Seg := [⟨145, 100⟩, ⟨150, 100⟩, ⟨160, 100⟩]

/-! ### Solver lemmas -/

theorem iterStep_converged_eq (susp : ARow → Bool) (p : WindParams) (segs : List Seg)
    (w : ℚ) (prev : Option ℚ) (x : ℚ)
    (h : iterStep susp p segs w prev = IterResult.converged x) :
    x = nextWind susp p segs w ∧ |nextWind susp p segs w - w| < 1 := by
  unfold iterStep at h
  by_cases hok : stepOk susp p segs w
  · simp only [hok, if_true] at h
    by_cases hc : |nextWind susp p segs w - w| < 1
    · simp only [hc, if_true] at h
      exact ⟨(IterResult.converged.injEq _ _).mp h.symm, hc⟩
    · simp only [hc, if_false] at h
      split at h <;> simp_all
  · simp [hok] at h

theorem iterStep_oscillating_eq (susp : ARow → Bool) (p : WindParams) (segs : List Seg)
    (w : ℚ) (prev : Option ℚ) (x : ℚ)
    (h : iterStep susp p segs w prev = IterResult.oscillating x) :
    x = (w + nextWind susp p segs w) / 2 := by
  unfold iterStep at h
  by_cases hok : stepOk susp p segs w
  · simp only [hok, if_true] at h
    by_cases hc : |nextWind susp p segs w - w| < 1
    · simp [hc] at h
    · simp only [hc, if_false] at h
      split at h
      · exact ((IterResult.oscillating.injEq _ _).mp h).symm
      · simp at h
  · simp [hok] at h

theorem nextWind_nonneg (susp : ARow → Bool) (p : WindParams) (segs : List Seg)
    (w : ℚ) : 0 ≤ nextWind susp p segs w :=
  qmod_nonneg _

theorem nextWind_lt_360 (susp : ARow → Bool) (p : WindParams) (segs : List Seg)
    (w : ℚ) : nextWind susp p segs w < 360 :=
  qmod_lt_360 _

/-- After the first iteration the loop always reaches the final pass, and once
the current hypothesis is inside `[0, 360)` it stays there. -/
theorem solverLoop_notFirst_finished (susp : ARow → Bool) (p : WindParams)
    (segs : List Seg) :
    ∀ (fuel : ℕ) (w : ℚ) (prev : Option ℚ), 0 ≤ w → w < 360 →
      ∃ r w2, solverLoop susp p segs fuel false w prev = LoopOutcome.finished r w2
        ∧ 0 ≤ w2 ∧ w2 < 360 := by
  intro fuel
  induction fuel with
  | zero =>
    intro w prev h0 h1
    exact ⟨StopReason.maxIterations, w, rfl, h0, h1⟩
  | succ n ih =>
    intro w prev h0 h1
    cases h : iterStep susp p segs w prev with
    | insufficient =>
      exact ⟨StopReason.insufficientData, w, by simp [solverLoop, h], h0, h1⟩
    | converged nw =>
      obtain ⟨hx, _⟩ := iterStep_converged_eq susp p segs w prev nw h
      subst hx
      exact ⟨StopReason.converged, nextWind susp p segs w, by simp [solverLoop, h],
        nextWind_nonneg susp p segs w, nextWind_lt_360 susp p segs w⟩
    | oscillating aw =>
      have hx := iterStep_oscillating_eq susp p segs w prev aw h
      subst hx
      refine ⟨StopReason.oscillating, (w + nextWind susp p segs w) / 2,
        by simp [solverLoop, h], ?_, ?_⟩
      · have := nextWind_nonneg susp p segs w
        linarith
      · have := nextWind_lt_360 susp p segs w
        linarith
    | proceed nw =>
      have hnw : nw = nextWind susp p segs w := by
        unfold iterStep at h
        by_cases hok : stepOk susp p segs w
        · simp only [hok, if_true] at h
          by_cases hc : |nextWind susp p segs w - w| < 1
          · simp [hc] at h
          · simp only [hc, if_false] at h
            split at h
            · simp at h
            · exact ((IterResult.proceed.injEq _ _).mp h).symm
        · simp [hok] at h
      subst hnw
      obtain ⟨r, w2, hl, hb0, hb1⟩ :=
        ih (nextWind susp p segs w) (some w) (nextWind_nonneg _ _ _ _) (nextWind_lt_360 _ _ _ _)
      exact ⟨r, w2, by simp [solverLoop, h, hl], hb0, hb1⟩

/-- A data failure at the starting hypothesis aborts the first iteration and
returns the initialized result unchanged. -/
theorem estimate_of_stepFail (susp : ARow → Bool) (p : WindParams) (segs : List Seg)
    (initial : ℚ) (hmax : 1 ≤ p.max_iterations)
    (hfail : stepOk susp p segs initial = false) :
    estimateWindDirectionIterative susp segs initial p = initialEstimate initial := by
  unfold estimateWindDirectionIterative
  by_cases hemp : segs.isEmpty
  · simp [hemp]
  · obtain ⟨k, hk⟩ : ∃ k, p.max_iterations = k + 1 := by
      cases hm : p.max_iterations with
      | zero => omega
      | succ k => exact ⟨k, rfl⟩
    have hstep : iterStep susp p segs initial none = IterResult.insufficient := by
      unfold iterStep
      simp [hfail]
    simp [hemp, hk, solverLoop, hstep]

/-! ### Claim C1 -/

/-- C1: in every solver iteration in which both tack medians are defined
(the sufficiency test passes), the next hypothesis is
`(w - (starboard_median - port_median) / 2) mod 360` with the medians taken
over each tack's best-pointing subset's `angle_to_wind`; the iteration
declares convergence exactly when `|new_w - w| < 1.0`, in which case the loop
stops at once and `new_w` is the direction the final pass keeps. -/
theorem wind_c1_update_and_convergence (susp : ARow → Bool) (p : WindParams)
    (segs : List Seg) (w : ℚ) (hok : stepOk susp p segs w = true) :
    nextWind susp p segs w
      = qmod (w -
          (median ((bestPointing p.best_attempts_fraction
              (starboardOf (stepFiltered susp p segs w))).map ARow.angle_to_wind)
            - median ((bestPointing p.best_attempts_fraction
              (portOf (stepFiltered susp p segs w))).map ARow.angle_to_wind)) / 2) 360
    ∧ (∀ prev x, iterStep susp p segs w prev = IterResult.converged x
        ↔ (|nextWind susp p segs w - w| < 1 ∧ x = nextWind susp p segs w))
    ∧ (∀ prev fuel isFirst, |nextWind susp p segs w - w| < 1 →
        solverLoop susp p segs (fuel + 1) isFirst w prev
          = LoopOutcome.finished StopReason.converged (nextWind susp p segs w))
    ∧ (∀ w2, (finalizeEstimate susp p segs w2).direction = w2) := by
  refine ⟨rfl, ?_, ?_, fun w2 => rfl⟩
  · intro prev x
    constructor
    · intro h
      obtain ⟨hx, hc⟩ := iterStep_converged_eq susp p segs w prev x h
      exact ⟨hc, hx⟩
    · rintro ⟨hc, rfl⟩
      unfold iterStep
      simp [hok, hc]
  · intro prev fuel isFirst hc
    have hstep : iterStep susp p segs w prev
        = IterResult.converged (nextWind susp p segs w) := by
      unfold iterStep
      simp [hok, hc]
    simp [solverLoop, hstep]

/-- Witness for C1 at the symmetric fixture around wind 100, where the update
returns 100 itself and the first loop iteration converges. -/
theorem wind_c1_witness :
    stepOk suspNone pDef segsSym 100 = true
    ∧ (nextWind suspNone pDef segsSym 100
        = qmod (100 -
            (median ((bestPointing pDef.best_attempts_fraction
                (starboardOf (stepFiltered suspNone pDef segsSym 100))).map ARow.angle_to_wind)
              - median ((bestPointing pDef.best_attempts_fraction
                (portOf (stepFiltered suspNone pDef segsSym 100))).map ARow.angle_to_wind)) / 2) 360
      ∧ (∀ prev x, iterStep suspNone pDef segsSym 100 prev = IterResult.converged x
          ↔ (|nextWind suspNone pDef segsSym 100 - 100| < 1
              ∧ x = nextWind suspNone pDef segsSym 100))
      ∧ (∀ prev fuel isFirst, |nextWind suspNone pDef segsSym 100 - 100| < 1 →
          solverLoop suspNone pDef segsSym (fuel + 1) isFirst 100 prev
            = LoopOutcome.finished StopReason.converged (nextWind suspNone pDef segsSym 100))
      ∧ (∀ w2, (finalizeEstimate suspNone pDef segsSym w2).direction = w2)) :=
  ⟨by with_unfolding_all decide,
   wind_c1_update_and_convergence suspNone pDef segsSym 100 (by with_unfolding_all decide)⟩

/-! ### Claim C2 -/

/-- Counterexample to C2 as stated.  With `segsC2` and the pure predicate
`suspC2`, the run from initial hypothesis 100 produces hypotheses
100 → 101 → 100.5.  At the second iteration the new hypothesis 100.5 is within
1.0° of the hypothesis from two iterations prior (100), yet the solver returns
100.5 — the convergence exit fires first (|100.5 - 101| < 1) — and not the
average (101 + 100.5)/2 = 100.75 of the last two hypotheses. -/
theorem wind_c2_counterexample :
    nextWind suspC2 pDef segsC2 100 = 101
    ∧ nextWind suspC2 pDef segsC2 101 = 201/2
    ∧ |(201 : ℚ)/2 - 100| < 1
    ∧ iterStep suspC2 pDef segsC2 101 (some 100) = IterResult.converged (201/2)
    ∧ (estimateWindDirectionIterative suspC2 segsC2 100 pDef).direction = 201/2
    ∧ (201 : ℚ)/2 ≠ (101 + 201/2) / 2 := by
  with_unfolding_all decide

/-- C2 as amended: if at an iteration after the first the new hypothesis
fails the convergence test but lies within the threshold of the hypothesis
from two iterations prior, the solver stops immediately (whatever budget
remains) and the final pass keeps the average of the last two hypotheses;
when the convergence test also passes, that exit wins and `new_w` itself is
kept. -/
theorem wind_c2_oscillation (susp : ARow → Bool) (p : WindParams) (segs : List Seg)
    (w pw : ℚ) (fuel : ℕ) (hok : stepOk susp p segs w = true)
    (hnc : ¬ |nextWind susp p segs w - w| < 1)
    (hosc : |nextWind susp p segs w - pw| < 1) :
    solverLoop susp p segs (fuel + 1) false w (some pw)
      = LoopOutcome.finished StopReason.oscillating ((w + nextWind susp p segs w) / 2)
    ∧ (finalizeEstimate susp p segs ((w + nextWind susp p segs w) / 2)).direction
        = (w + nextWind susp p segs w) / 2 := by
  have hstep : iterStep susp p segs w (some pw)
      = IterResult.oscillating ((w + nextWind susp p segs w) / 2) := by
    unfold iterStep
    simp [hok, hnc, hosc]
  exact ⟨by simp [solverLoop, hstep], rfl⟩

/-- Witness for the amended C2: from wind 200 with `segsOsc` the update gives
202 (no convergence), which is within 1.0° of the two-iterations-prior
hypothesis 202.5, so the loop stops oscillating at (200 + 202)/2 = 201. -/
theorem wind_c2_witness :
    solverLoop suspNone pDef segsOsc 3 false 200 (some (405/2))
      = LoopOutcome.finished StopReason.oscillating 201
    ∧ (finalizeEstimate suspNone pDef segsOsc 201).direction = 201 := by
  have h := wind_c2_oscillation suspNone pDef segsOsc 200 (405/2) 2
    (by with_unfolding_all decide)
    (by with_unfolding_all decide)
    (by with_unfolding_all decide)
  have hnw : nextWind suspNone pDef segsOsc 200 = 202 := by with_unfolding_all decide
  rw [hnw] at h
  norm_num at h ⊢
  exact h

/-! ### Claim C9 -/

/-- C9: the convergence, oscillation, and recovery arithmetic is plain (not
circular): (i) when the plain difference of `new_w` and `w` is not below the
threshold the iteration is never declared converged, even if their circular
distance is below it; (ii) likewise for the oscillation test against the
hypothesis from two iterations prior; (iii) a declared oscillation always
returns the plain arithmetic mean `(w + new_w)/2`; and concretely, for the
seam-straddling pair current = 359, new = 1 (previous hypothesis 0.5) the
solver declares oscillation and returns 180 — the arithmetic mean, far from
the circular mean 0. -/
theorem wind_c9_plain_arithmetic :
    (∀ (susp : ARow → Bool) (p : WindParams) (segs : List Seg) (w : ℚ)
        (prev : Option ℚ) (x : ℚ), stepOk susp p segs w = true →
        min (qmod (nextWind susp p segs w - w) 360) (qmod (w - nextWind susp p segs w) 360) < 1 →
        ¬ |nextWind susp p segs w - w| < 1 →
        iterStep susp p segs w prev ≠ IterResult.converged x)
    ∧ (∀ (susp : ARow → Bool) (p : WindParams) (segs : List Seg) (w pw : ℚ) (x : ℚ),
        stepOk susp p segs w = true →
        min (qmod (nextWind susp p segs w - pw) 360) (qmod (pw - nextWind susp p segs w) 360) < 1 →
        ¬ |nextWind susp p segs w - pw| < 1 →
        iterStep susp p segs w (some pw) ≠ IterResult.oscillating x)
    ∧ (∀ (susp : ARow → Bool) (p : WindParams) (segs : List Seg) (w : ℚ)
        (prev : Option ℚ) (x : ℚ),
        iterStep susp p segs w prev = IterResult.oscillating x →
        x = (w + nextWind susp p segs w) / 2)
    ∧ iterStep suspNone pDef segsC9 359 (some (1/2)) = IterResult.oscillating 180
    ∧ ((359 + 1 : ℚ) / 2 = 180 ∧ (180 : ℚ) ≠ 0) := by
  refine ⟨?_, ?_, ?_, by with_unfolding_all decide, by norm_num⟩
  · intro susp p segs w prev x _ _ hnc h
    obtain ⟨_, hc⟩ := iterStep_converged_eq susp p segs w prev x h
    exact hnc hc
  · intro susp p segs w pw x hok _ hno h
    unfold iterStep at h
    by_cases hc : |nextWind susp p segs w - w| < 1
    · simp [hok, hc] at h
    · simp [hok, hc, hno] at h
  · intro susp p segs w prev x h
    exact iterStep_oscillating_eq susp p segs w prev x h

/-- Witness for C9's general parts at the seam fixture: from wind 359.5 the
update returns 0.3 (circular distance 0.8, plain difference 359.2); the
iteration is neither declared converged nor, with previous hypothesis 359.9,
declared oscillating. -/
theorem wind_c9_witness :
    iterStep suspNone pDef segsSeam (719/2) (some (3599/10)) ≠ IterResult.converged (3/10)
    ∧ iterStep suspNone pDef segsSeam (719/2) (some (3599/10))
        ≠ IterResult.oscillating (3/10) := by
  constructor
  · exact wind_c9_plain_arithmetic.1 suspNone pDef segsSeam (719/2) (some (3599/10)) (3/10)
      (by with_unfolding_all decide)
      (by with_unfolding_all decide)
      (by with_unfolding_all decide)
  · exact wind_c9_plain_arithmetic.2.1 suspNone pDef segsSeam (719/2) (3599/10) (3/10)
      (by with_unfolding_all decide)
      (by with_unfolding_all decide)
      (by with_unfolding_all decide)

/-! ### Claim C3 -/

theorem mem_of_mem_distFiltered (p : WindParams) (rows : List ARow) (r : ARow)
    (hr : r ∈ distFiltered p rows) : r ∈ rows := by
  unfold distFiltered at hr
  split at hr
  · exact (List.mem_filter.mp hr).1
  · exact hr

theorem mem_of_mem_suspFiltered (susp : ARow → Bool) (rows : List ARow) (r : ARow)
    (hr : r ∈ suspFiltered susp rows) : r ∈ rows := by
  unfold suspFiltered at hr
  split at hr
  · exact hr
  · exact (List.mem_filter.mp hr).1

theorem stepFiltered_subset (susp : ARow → Bool) (p : WindParams) (segs : List Seg)
    (w : ℚ) (r : ARow) (hr : r ∈ stepFiltered susp p segs w) :
    r ∈ analyzeWindAngles segs w := by
  have h1 := mem_of_mem_distFiltered p _ r hr
  have h2 := mem_of_mem_suspFiltered susp _ r h1
  exact (List.mem_filter.mp h2).1

theorem stepOk_false_of_single_tack (susp : ARow → Bool) (p : WindParams)
    (segs : List Seg) (w : ℚ)
    (hone : (analyzeWindAngles segs w).all (fun r => decide (r.tack = Tack.port)) = true
        ∨ (analyzeWindAngles segs w).all (fun r => decide (r.tack = Tack.starboard)) = true) :
    stepOk susp p segs w = false := by
  have h : (∀ r ∈ analyzeWindAngles segs w, r.tack = Tack.port)
      ∨ (∀ r ∈ analyzeWindAngles segs w, r.tack = Tack.starboard) := by
    cases hone with
    | inl ha =>
      exact Or.inl fun r hr => by
        have hb := List.all_eq_true.mp ha r hr
        exact of_decide_eq_true hb
    | inr ha =>
      exact Or.inr fun r hr => by
        have hb := List.all_eq_true.mp ha r hr
        exact of_decide_eq_true hb
  unfold stepOk
  cases h with
  | inl hp =>
    have hs : starboardOf (stepFiltered susp p segs w) = [] := by
      unfold starboardOf
      rw [List.filter_eq_nil_iff]
      intro r hr
      have ht := hp r (stepFiltered_subset susp p segs w r hr)
      rw [ht]
      decide
    simp [hs]
  | inr hs =>
    have hp2 : portOf (stepFiltered susp p segs w) = [] := by
      unfold portOf
      rw [List.filter_eq_nil_iff]
      intro r hr
      have ht := hs r (stepFiltered_subset susp p segs w r hr)
      rw [ht]
      decide
    simp [hp2]

/-- C3: (i) a data failure at the first iteration — fewer than 3 qualifying
upwind segments after the suspicious and minimum-distance filters, or an
empty tack — returns the initialized estimate: direction equal to the initial
hypothesis, confidence low, no tack angles; (ii) in particular a segment set
whose rows all classify to a single tack yields confidence low, an absent
starboard angle, and the initial direction; (iii) on a later iteration the
same failure stops the loop keeping the previous iteration's hypothesis. -/
theorem wind_c3_insufficient_data :
    (∀ (susp : ARow → Bool) (p : WindParams) (segs : List Seg) (initial : ℚ),
      1 ≤ p.max_iterations → stepOk susp p segs initial = false →
      estimateWindDirectionIterative susp segs initial p = initialEstimate initial)
    ∧ (∀ (susp : ARow → Bool) (p : WindParams) (segs : List Seg) (initial : ℚ),
      1 ≤ p.max_iterations →
      ((analyzeWindAngles segs initial).all (fun r => decide (r.tack = Tack.port)) = true
        ∨ (analyzeWindAngles segs initial).all (fun r => decide (r.tack = Tack.starboard)) = true) →
      (estimateWindDirectionIterative susp segs initial p).confidence = "low"
      ∧ (estimateWindDirectionIterative susp segs initial p).starboard_angle = none
      ∧ (estimateWindDirectionIterative susp segs initial p).direction = initial)
    ∧ (∀ (susp : ARow → Bool) (p : WindParams) (segs : List Seg) (w : ℚ)
        (prev : Option ℚ) (fuel : ℕ),
      iterStep susp p segs w prev = IterResult.insufficient →
      solverLoop susp p segs (fuel + 1) false w prev
        = LoopOutcome.finished StopReason.insufficientData w) := by
  refine ⟨fun susp p segs initial hmax hfail =>
      estimate_of_stepFail susp p segs initial hmax hfail, ?_, ?_⟩
  · intro susp p segs initial hmax h
    have hfail := stepOk_false_of_single_tack susp p segs initial h
    rw [estimate_of_stepFail susp p segs initial hmax hfail]
    exact ⟨rfl, rfl, rfl⟩
  · intro susp p segs w prev fuel h
    simp [solverLoop, h]

/-- Witness for C3: a one-segment set fails at once and returns the
initialized estimate; a three-segment all-port set returns confidence low
with no starboard angle; an insufficient later iteration keeps hypothesis 5. -/
theorem wind_c3_witness :
    estimateWindDirectionIterative suspNone segsOne 70 pDef = initialEstimate 70
    ∧ ((estimateWindDirectionIterative suspNone segsPort 100 pDef).confidence = "low"
        ∧ (estimateWindDirectionIterative suspNone segsPort 100 pDef).starboard_angle = none
        ∧ (estimateWindDirectionIterative suspNone segsPort 100 pDef).direction = 100)
    ∧ solverLoop suspNone pDef segsOne 3 false 5 none
        = LoopOutcome.finished StopReason.insufficientData 5 :=
  ⟨wind_c3_insufficient_data.1 suspNone pDef segsOne 70
      (by with_unfolding_all decide) (by with_unfolding_all decide),
   wind_c3_insufficient_data.2.1 suspNone pDef segsPort 100
      (by with_unfolding_all decide) (Or.inl (by with_unfolding_all decide)),
   wind_c3_insufficient_data.2.2 suspNone pDef segsOne 5 none 2
      (by with_unfolding_all decide)⟩

/-! ### Claim C10 -/

/-- C10: (i) a first-iteration abort returns `user_provided = true` and the
caller's initial hypothesis exactly as passed, with no mod-360 normalization
(450 comes back as 450, see the witness); (ii) whenever the first iteration
completes (its data test passes, so at least one update is computed), the
returned estimate has `user_provided = false` and a direction in `[0, 360)`. -/
theorem wind_c10_user_provided :
    (∀ (susp : ARow → Bool) (p : WindParams) (segs : List Seg) (initial : ℚ),
      1 ≤ p.max_iterations → stepOk susp p segs initial = false →
      (estimateWindDirectionIterative susp segs initial p).user_provided = true
      ∧ (estimateWindDirectionIterative susp segs initial p).direction = initial)
    ∧ (∀ (susp : ARow → Bool) (p : WindParams) (segs : List Seg) (initial : ℚ),
      1 ≤ p.max_iterations → segs.isEmpty = false →
      stepOk susp p segs initial = true →
      (estimateWindDirectionIterative susp segs initial p).user_provided = false
      ∧ 0 ≤ (estimateWindDirectionIterative susp segs initial p).direction
      ∧ (estimateWindDirectionIterative susp segs initial p).direction < 360) := by
  constructor
  · intro susp p segs initial hmax hfail
    rw [estimate_of_stepFail susp p segs initial hmax hfail]
    exact ⟨rfl, rfl⟩
  · intro susp p segs initial hmax hne hok
    obtain ⟨k, hk⟩ : ∃ k, p.max_iterations = k + 1 := by
      cases hm : p.max_iterations with
      | zero => omega
      | succ k => exact ⟨k, rfl⟩
    have hrun : ∃ r w2,
        solverLoop susp p segs p.max_iterations true initial none
          = LoopOutcome.finished r w2 ∧ 0 ≤ w2 ∧ w2 < 360 := by
      rw [hk]
      cases h : iterStep susp p segs initial none with
      | insufficient =>
        exfalso
        unfold iterStep at h
        simp [hok] at h
        split at h <;> simp_all
      | converged nw =>
        obtain ⟨hx, _⟩ := iterStep_converged_eq susp p segs initial none nw h
        subst hx
        exact ⟨StopReason.converged, nextWind susp p segs initial,
          by simp [solverLoop, h], nextWind_nonneg susp p segs initial,
          nextWind_lt_360 susp p segs initial⟩
      | oscillating aw =>
        exfalso
        unfold iterStep at h
        simp [hok] at h
        split at h <;> simp_all
      | proceed nw =>
        have hnw : nw = nextWind susp p segs initial := by
          unfold iterStep at h
          simp [hok] at h
          split at h <;> simp_all
        subst hnw
        obtain ⟨r, w2, hl, hb0, hb1⟩ := solverLoop_notFirst_finished susp p segs k
          (nextWind susp p segs initial) (some initial)
          (nextWind_nonneg susp p segs initial) (nextWind_lt_360 susp p segs initial)
        exact ⟨r, w2, by simp [solverLoop, h, hl], hb0, hb1⟩
    obtain ⟨r, w2, hl, hb0, hb1⟩ := hrun
    unfold estimateWindDirectionIterative
    simp only [hne, Bool.false_eq_true, if_false, hl]
    exact ⟨rfl, hb0, hb1⟩

/-- Witness for C10: a failing one-segment set with initial hypothesis 450
returns user_provided and direction 450 un-normalized; the symmetric fixture
from 100 completes an iteration and returns a non-user direction in
`[0, 360)`. -/
theorem wind_c10_witness :
    ((estimateWindDirectionIterative suspNone segsOne 450 pDef).user_provided = true
      ∧ (estimateWindDirectionIterative suspNone segsOne 450 pDef).direction = 450)
    ∧ ((estimateWindDirectionIterative suspNone segsSym 100 pDef).user_provided = false
      ∧ 0 ≤ (estimateWindDirectionIterative suspNone segsSym 100 pDef).direction
      ∧ (estimateWindDirectionIterative suspNone segsSym 100 pDef).direction < 360) :=
  ⟨wind_c10_user_provided.1 suspNone pDef segsOne 450
      (by with_unfolding_all decide) (by with_unfolding_all decide),
   wind_c10_user_provided.2 suspNone pDef segsSym 100
      (by with_unfolding_all decide) (by with_unfolding_all decide)
      (by with_unfolding_all decide)⟩

/-! ### Claim C4 -/

theorem insertRow_length (x : ARow) (l : List ARow) :
    (insertRow x l).length = l.length + 1 := by
  induction l with
  | nil => rfl
  | cons y ys ih =>
    unfold insertRow
    split
    · rfl
    · simpa using ih

theorem sortByAngle_length (l : List ARow) : (sortByAngle l).length = l.length := by
  induction l with
  | nil => rfl
  | cons x xs ih =>
    unfold sortByAngle
    rw [insertRow_length, ih]
    rfl

/-- The best-pointing subset has at least 3 rows exactly when the tack has at
least 3 rows (for any `max_fraction`): `get_best_pointing_segments` returns
everything below 4 rows and otherwise at least `max(3, ...)` rows. -/
theorem three_le_bestPointing_length_iff (f : ℚ) (l : List ARow) :
    3 ≤ (bestPointing f l).length ↔ 3 ≤ l.length := by
  unfold bestPointing
  by_cases h : l.length ≤ 3
  · simp [h]
  · simp only [h, if_false]
    rw [List.length_take, sortByAngle_length]
    omega

/-- C4: the finalized estimate's confidence is "high" exactly when the two
final tack angles exist, differ by less than 20°, each tack has at least 3
best-pointing rows (the counts the estimate carries), and the filtered upwind
rows total more than 500 m of distance; "medium" exactly when the angles exist
and differ by less than 30° but the high conditions do not all hold; "low" in
every other case, in particular whenever either tack angle is absent. -/
theorem wind_c4_confidence (susp : ARow → Bool) (p : WindParams) (segs : List Seg)
    (w : ℚ) :
    ((finalizeEstimate susp p segs w).confidence = "high"
      ↔ ∃ pa sa, (finalizeEstimate susp p segs w).port_angle = some pa
          ∧ (finalizeEstimate susp p segs w).starboard_angle = some sa
          ∧ |pa - sa| < 20
          ∧ 3 ≤ (finalizeEstimate susp p segs w).port_count
          ∧ 3 ≤ (finalizeEstimate susp p segs w).starboard_count
          ∧ 500 < sumDist (stepFiltered susp p segs w))
    ∧ ((finalizeEstimate susp p segs w).confidence = "medium"
      ↔ ∃ pa sa, (finalizeEstimate susp p segs w).port_angle = some pa
          ∧ (finalizeEstimate susp p segs w).starboard_angle = some sa
          ∧ |pa - sa| < 30
          ∧ ¬(|pa - sa| < 20
              ∧ 3 ≤ (finalizeEstimate susp p segs w).port_count
              ∧ 3 ≤ (finalizeEstimate susp p segs w).starboard_count
              ∧ 500 < sumDist (stepFiltered susp p segs w)))
    ∧ (((finalizeEstimate susp p segs w).port_angle = none
        ∨ (finalizeEstimate susp p segs w).starboard_angle = none)
        → (finalizeEstimate susp p segs w).confidence = "low")
    ∧ ((finalizeEstimate susp p segs w).confidence = "low"
      ↔ ¬((finalizeEstimate susp p segs w).confidence = "medium"
          ∨ (finalizeEstimate susp p segs w).confidence = "high")) := by
  simp only [finalizeEstimate]
  by_cases hp : (portOf (stepFiltered susp p segs w)).isEmpty
  · have hpa : finalPortAngle susp p segs w = none := by
      unfold finalPortAngle
      rw [if_pos hp]
    have hconf : finalConfidence susp p segs w = "low" := by
      unfold finalConfidence
      rw [hpa]
    simp [hconf, hpa]
  · by_cases hs : (starboardOf (stepFiltered susp p segs w)).isEmpty
    · have hsa : finalStarboardAngle susp p segs w = none := by
        unfold finalStarboardAngle
        rw [if_pos hs]
      have hconf : finalConfidence susp p segs w = "low" := by
        unfold finalConfidence
        rw [hsa]
        cases finalPortAngle susp p segs w <;> rfl
      simp [hconf, hsa]
    · have hpa : finalPortAngle susp p segs w
          = some (median ((bestPointing p.best_attempts_fraction
              (portOf (stepFiltered susp p segs w))).map ARow.angle_to_wind)) := by
        unfold finalPortAngle
        rw [if_neg hp]
      have hsa : finalStarboardAngle susp p segs w
          = some (median ((bestPointing p.best_attempts_fraction
              (starboardOf (stepFiltered susp p segs w))).map ARow.angle_to_wind)) := by
        unfold finalStarboardAngle
        rw [if_neg hs]
      have hpcnt : finalPortCount susp p segs w
          = (bestPointing p.best_attempts_fraction
              (portOf (stepFiltered susp p segs w))).length := by
        unfold finalPortCount
        rw [if_neg hp]
      have hscnt : finalStarboardCount susp p segs w
          = (bestPointing p.best_attempts_fraction
              (starboardOf (stepFiltered susp p segs w))).length := by
        unfold finalStarboardCount
        rw [if_neg hs]
      have hpc : 3 ≤ (portOf (stepFiltered susp p segs w)).length
          ↔ 3 ≤ (bestPointing p.best_attempts_fraction
              (portOf (stepFiltered susp p segs w))).length :=
        (three_le_bestPointing_length_iff _ _).symm
      have hsc : 3 ≤ (starboardOf (stepFiltered susp p segs w)).length
          ↔ 3 ≤ (bestPointing p.best_attempts_fraction
              (starboardOf (stepFiltered susp p segs w))).length :=
        (three_le_bestPointing_length_iff _ _).symm
      have hcm : finalConfidence susp p segs w
          = (if |median ((bestPointing p.best_attempts_fraction
                  (portOf (stepFiltered susp p segs w))).map ARow.angle_to_wind)
                - median ((bestPointing p.best_attempts_fraction
                  (starboardOf (stepFiltered susp p segs w))).map ARow.angle_to_wind)| < 20
                ∧ 3 ≤ (portOf (stepFiltered susp p segs w)).length
                ∧ 3 ≤ (starboardOf (stepFiltered susp p segs w)).length
                ∧ 500 < sumDist (stepFiltered susp p segs w) then "high"
             else if |median ((bestPointing p.best_attempts_fraction
                  (portOf (stepFiltered susp p segs w))).map ARow.angle_to_wind)
                - median ((bestPointing p.best_attempts_fraction
                  (starboardOf (stepFiltered susp p segs w))).map ARow.angle_to_wind)| < 30
                then "medium" else "low") := by
        unfold finalConfidence
        rw [hpa, hsa]
      by_cases hhigh :
          |median ((bestPointing p.best_attempts_fraction
              (portOf (stepFiltered susp p segs w))).map ARow.angle_to_wind)
            - median ((bestPointing p.best_attempts_fraction
              (starboardOf (stepFiltered susp p segs w))).map ARow.angle_to_wind)| < 20
          ∧ 3 ≤ (portOf (stepFiltered susp p segs w)).length
          ∧ 3 ≤ (starboardOf (stepFiltered susp p segs w)).length
          ∧ 500 < sumDist (stepFiltered susp p segs w)
      · rw [if_pos hhigh] at hcm
        obtain ⟨h1, h2, h3, h4⟩ := hhigh
        refine ⟨?_, ?_, ?_, ?_⟩
        · simp only [hcm, hpa, hsa, hpcnt, hscnt, true_iff, Option.some.injEq]
          exact ⟨_, _, rfl, rfl, h1, hpc.mp h2, hsc.mp h3, h4⟩
        · simp only [hcm, hpa, hsa, hpcnt, hscnt, Option.some.injEq]
          constructor
          · intro hcon
            simp at hcon
          · rintro ⟨pa, sa, rfl, rfl, hmm, hnot⟩
            exact absurd ⟨h1, hpc.mp h2, hsc.mp h3, h4⟩ hnot
        · intro hcon
          rw [hpa, hsa] at hcon
          simp at hcon
        · simp [hcm]
      · rw [if_neg hhigh] at hcm
        by_cases hmed :
            |median ((bestPointing p.best_attempts_fraction
                (portOf (stepFiltered susp p segs w))).map ARow.angle_to_wind)
              - median ((bestPointing p.best_attempts_fraction
                (starboardOf (stepFiltered susp p segs w))).map ARow.angle_to_wind)| < 30
        · rw [if_pos hmed] at hcm
          refine ⟨?_, ?_, ?_, ?_⟩
          · simp only [hcm, hpa, hsa, hpcnt, hscnt, Option.some.injEq]
            constructor
            · intro hcon
              simp at hcon
            · rintro ⟨pa, sa, rfl, rfl, hm1, hm2, hm3, hm4⟩
              exact absurd ⟨hm1, hpc.mpr hm2, hsc.mpr hm3, hm4⟩ hhigh
          · simp only [hcm, hpa, hsa, hpcnt, hscnt, true_iff, Option.some.injEq]
            refine ⟨_, _, rfl, rfl, hmed, ?_⟩
            rintro ⟨hm1, hm2, hm3, hm4⟩
            exact absurd ⟨hm1, hpc.mpr hm2, hsc.mpr hm3, hm4⟩ hhigh
          · intro hcon
            rw [hpa, hsa] at hcon
            simp at hcon
          · simp [hcm]
        · rw [if_neg hmed] at hcm
          refine ⟨?_, ?_, ?_, ?_⟩
          · simp only [hcm, hpa, hsa, hpcnt, hscnt, Option.some.injEq]
            constructor
            · intro hcon
              simp at hcon
            · rintro ⟨pa, sa, rfl, rfl, hm1, hm2, hm3, hm4⟩
              exact absurd ⟨hm1, hpc.mpr hm2, hsc.mpr hm3, hm4⟩ hhigh
          · simp only [hcm, hpa, hsa, hpcnt, hscnt, Option.some.injEq]
            constructor
            · intro hcon
              simp at hcon
            · rintro ⟨pa, sa, rfl, rfl, hm1, hnot⟩
              exact absurd hm1 hmed
          · intro _
            exact hcm
          · simp [hcm]

/-- Witness for C4 at the symmetric fixture finalized at 100: confidence is
high, and every characterization of the theorem holds there. -/
theorem wind_c4_witness :
    ((finalizeEstimate suspNone pDef segsSym 100).confidence = "high"
      ↔ ∃ pa sa, (finalizeEstimate suspNone pDef segsSym 100).port_angle = some pa
          ∧ (finalizeEstimate suspNone pDef segsSym 100).starboard_angle = some sa
          ∧ |pa - sa| < 20
          ∧ 3 ≤ (finalizeEstimate suspNone pDef segsSym 100).port_count
          ∧ 3 ≤ (finalizeEstimate suspNone pDef segsSym 100).starboard_count
          ∧ 500 < sumDist (stepFiltered suspNone pDef segsSym 100))
    ∧ ((finalizeEstimate suspNone pDef segsSym 100).confidence = "medium"
      ↔ ∃ pa sa, (finalizeEstimate suspNone pDef segsSym 100).port_angle = some pa
          ∧ (finalizeEstimate suspNone pDef segsSym 100).starboard_angle = some sa
          ∧ |pa - sa| < 30
          ∧ ¬(|pa - sa| < 20
              ∧ 3 ≤ (finalizeEstimate suspNone pDef segsSym 100).port_count
              ∧ 3 ≤ (finalizeEstimate suspNone pDef segsSym 100).starboard_count
              ∧ 500 < sumDist (stepFiltered suspNone pDef segsSym 100)))
    ∧ (((finalizeEstimate suspNone pDef segsSym 100).port_angle = none
        ∨ (finalizeEstimate suspNone pDef segsSym 100).starboard_angle = none)
        → (finalizeEstimate suspNone pDef segsSym 100).confidence = "low")
    ∧ ((finalizeEstimate suspNone pDef segsSym 100).confidence = "low"
      ↔ ¬((finalizeEstimate suspNone pDef segsSym 100).confidence = "medium"
          ∨ (finalizeEstimate suspNone pDef segsSym 100).confidence = "high")) :=
  wind_c4_confidence suspNone pDef segsSym 100

/-! ### Claim C7 -/

/-- The upwind restriction used by `calculate_wind_score`
(`angle_to_wind < UPWIND_DOWNWIND_BOUNDARY_DEGREES = 90`). -/
def scoreUpwind (rows : List ARow) : List ARow :=
  rows.filter fun r => decide (r.angle_to_wind < 90)

/-- Port/starboard balance of the upwind rows: `min/max` of the two counts,
0 when either tack is absent. -/
def tackBalance (rows : List ARow) : ℚ :=
  if 0 < (portOf (scoreUpwind rows)).length
      ∧ 0 < (starboardOf (scoreUpwind rows)).length then
    ((min (portOf (scoreUpwind rows)).length
        (starboardOf (scoreUpwind rows)).length : ℕ) : ℚ)
      / ((max (portOf (scoreUpwind rows)).length
        (starboardOf (scoreUpwind rows)).length : ℕ) : ℚ)
  else 0

/-- Upwind/downwind balance: `min(u, n-u) / max(u, n-u, 1)`. -/
def upwindDownwindBalance (rows : List ARow) : ℚ :=
  ((min (scoreUpwind rows).length (rows.length - (scoreUpwind rows).length) : ℕ) : ℚ)
    / ((max (max (scoreUpwind rows).length
        (rows.length - (scoreUpwind rows).length)) 1 : ℕ) : ℚ)

/-- Consistency of the upwind angles: `1 - min(std/30, 1)` when at least
`MIN_SEGMENTS_FOR_ESTIMATION = 3` upwind rows exist, else 0.  `stddevF`
stands for `np.std` (population standard deviation, an irrational external
primitive). -/
def normalizedSpread (stddevF : List ℚ → ℚ) (rows : List ARow) : ℚ :=
  if 3 ≤ (scoreUpwind rows).length then
    1 - min (stddevF ((scoreUpwind rows).map ARow.angle_to_wind) / 30) 1
  else 0

/-- Embeds `core.wind.algorithms.calculate_wind_score` over already-analyzed rows.
Weights are passed explicitly; the code's defaults are 0.5 / 0.3 / 0.2. -/
def calculateWindScore (stddevF : List ℚ → ℚ) (rows : List ARow)
    (upwind_weight spread_weight balance_weight : ℚ) : ℚ :=
  upwind_weight * tackBalance rows
    + spread_weight * normalizedSpread stddevF rows
    + balance_weight * upwindDownwindBalance rows

/-- The score formula exactly as C7 states it: the spread term is always
`1 - min(std/30, 1)`, with no small-sample branch.  Kept for comparison with
`calculateWindScore`, which is the code's behavior. -/
def claimedWindScoreC7 (stddevF : List ℚ → ℚ) (rows : List ARow) : ℚ :=
  1/2 * tackBalance rows
    + 3/10 * (1 - min (stddevF ((scoreUpwind rows).map ARow.angle_to_wind) / 30) 1)
    + 1/5 * upwindDownwindBalance rows

theorem tackBalance_bounds (rows : List ARow) :
    0 ≤ tackBalance rows ∧ tackBalance rows ≤ 1 := by
  unfold tackBalance
  split
  · rename_i hios
    constructor
    · positivity
    · rw [div_le_one (by exact_mod_cast Nat.lt_of_lt_of_le hios.1 (Nat.le_max_left _ _))]
      exact_mod_cast min_le_max
  · norm_num

theorem upwindDownwindBalance_bounds (rows : List ARow) :
    0 ≤ upwindDownwindBalance rows ∧ upwindDownwindBalance rows ≤ 1 := by
  unfold upwindDownwindBalance
  constructor
  · positivity
  · rw [div_le_one (by exact_mod_cast Nat.lt_of_lt_of_le Nat.one_pos (Nat.le_max_right _ _))]
    exact_mod_cast le_trans (min_le_left _ _)
      (le_trans (Nat.le_max_left _ _) (Nat.le_max_left _ _))

theorem normalizedSpread_bounds (stddevF : List ℚ → ℚ) (rows : List ARow)
    (hstd : 0 ≤ stddevF ((scoreUpwind rows).map ARow.angle_to_wind)) :
    0 ≤ normalizedSpread stddevF rows ∧ normalizedSpread stddevF rows ≤ 1 := by
  unfold normalizedSpread
  split
  · have h0 : 0 ≤ stddevF ((scoreUpwind rows).map ARow.angle_to_wind) / 30 := by
      positivity
    constructor
    · have hm : min (stddevF ((scoreUpwind rows).map ARow.angle_to_wind) / 30) 1 ≤ 1 :=
        min_le_right _ _
      linarith
    · have hm : 0 ≤ min (stddevF ((scoreUpwind rows).map ARow.angle_to_wind) / 30) 1 :=
        le_min h0 (by norm_num)
      linarith
  · norm_num

/-- Two segments analyzed at wind 0: one upwind port row (bearing 45) and one
downwind row (bearing 135). -/
def segsC7 : List Seg := [⟨45, 100⟩, ⟨135, 100⟩]

/-- Counterexample to C7 as stated: with fewer than 3 upwind rows the code
zeroes the spread term instead of using `1 - min(std/30, 1)`.  On `segsC7`
at wind 0 (one upwind and one downwind row, `np.std` of the single upwind
angle being 0), the code scores 0.2 while the claimed formula gives 0.5. -/
theorem wind_c7_counterexample :
    calculateWindScore (fun _ => 0) (analyzeWindAngles segsC7 0) (1/2) (3/10) (1/5) = 1/5
    ∧ claimedWindScoreC7 (fun _ => 0) (analyzeWindAngles segsC7 0) = 1/2
    ∧ ((1 : ℚ)/5 ≠ 1/2) := by
  with_unfolding_all decide

/-- C7 as amended: with the default weights the score is
`0.5 * tack_balance + 0.3 * normalized_spread + 0.2 * upwind_downwind_balance`,
where `tack_balance` and `upwind_downwind_balance` are the claim's min/max
count ratios and the spread term is `1 - min(std/30, 1)` only when at least 3
upwind rows exist (0 otherwise); provided the standard-deviation primitive is
nonnegative, the score lies in `[0, 1]`. -/
theorem wind_c7_score (stddevF : List ℚ → ℚ) (rows : List ARow)
    (hstd : ∀ xs, 0 ≤ stddevF xs) :
    calculateWindScore stddevF rows (1/2) (3/10) (1/5)
      = 1/2 * tackBalance rows
        + 3/10 * (if 3 ≤ (scoreUpwind rows).length then
            1 - min (stddevF ((scoreUpwind rows).map ARow.angle_to_wind) / 30) 1
          else 0)
        + 1/5 * upwindDownwindBalance rows
    ∧ 0 ≤ calculateWindScore stddevF rows (1/2) (3/10) (1/5)
    ∧ calculateWindScore stddevF rows (1/2) (3/10) (1/5) ≤ 1 := by
  obtain ⟨h1, h2⟩ := tackBalance_bounds rows
  obtain ⟨h3, h4⟩ := upwindDownwindBalance_bounds rows
  obtain ⟨h5, h6⟩ := normalizedSpread_bounds stddevF rows (hstd _)
  refine ⟨rfl, ?_, ?_⟩
  · unfold calculateWindScore
    linarith
  · unfold calculateWindScore
    linarith

/-- Witness for the amended C7 at `segsC7` analyzed at wind 0 with the zero
standard-deviation primitive. -/
theorem wind_c7_witness :
    calculateWindScore (fun _ => 0) (analyzeWindAngles segsC7 0) (1/2) (3/10) (1/5)
      = 1/2 * tackBalance (analyzeWindAngles segsC7 0)
        + 3/10 * (if 3 ≤ (scoreUpwind (analyzeWindAngles segsC7 0)).length then
            1 - min ((fun (_ : List ℚ) => (0:ℚ))
                ((scoreUpwind (analyzeWindAngles segsC7 0)).map ARow.angle_to_wind) / 30) 1
          else 0)
        + 1/5 * upwindDownwindBalance (analyzeWindAngles segsC7 0)
    ∧ 0 ≤ calculateWindScore (fun _ => 0) (analyzeWindAngles segsC7 0) (1/2) (3/10) (1/5)
    ∧ calculateWindScore (fun _ => 0) (analyzeWindAngles segsC7 0) (1/2) (3/10) (1/5) ≤ 1 :=
  wind_c7_score (fun _ => 0) (analyzeWindAngles segsC7 0) (fun _ => le_refl 0)

/-! ### Claim C5 -/

/-- A GPS track point: latitude, longitude, and an optional timestamp
(seconds; pandas `NaT`/absent time is `none`, and an absent `time` column is
the all-`none` track). -/
structure TrackPoint where
  latitude : ℚ
  longitude : ℚ
  time : Option ℚ
deriving DecidableEq, Repr

/-- A row of the dataframe returned by `calculate_point_metrics`: the original
point plus the `bearing`, `distance_m` and `duration_sec` columns. -/
structure MetricPoint where
  latitude : ℚ
  longitude : ℚ
  time : Option ℚ
  bearing : ℚ
  distance_m : ℚ
  duration_sec : ℚ
deriving DecidableEq, Repr

/-- Default point for list indexing (indices are always in range where used). -/
def ptDefault : TrackPoint := ⟨0, 0, none⟩

def ptAt (pts : List TrackPoint) (i : ℕ) : TrackPoint := pts.getD i ptDefault

/-- The per-pair duration of `calculate_point_metrics` exactly as the code
computes it at loop index `i`: 0 for `i = 0`, else the difference of the
timestamps at `i` and `i - 1` when both are present, else 0. -/
def codePairDuration (pts : List TrackPoint) (i : ℕ) : ℚ :=
  if i = 0 then 0
  else
    match (ptAt pts i).time, (ptAt pts (i - 1)).time with
    | some a, some b => a - b
    | _, _ => 0

/-- Embeds `core.segments.detector.calculate_point_metrics`, parametric in the
geometric primitives `bearingF` (`calculate_bearing`, trigonometric forward
azimuth) and `distF` (`calculate_distance`, geodesic meters), both applied as
`f lat1 lon1 lat2 lon2`.  For fewer than 2 points the code returns the
dataframe without metric columns, embedded as the empty row list. -/
def calculatePointMetrics (bearingF distF : ℚ → ℚ → ℚ → ℚ → ℚ)
    (pts : List TrackPoint) : List MetricPoint :=
  if pts.length < 2 then []
  else
    let n := pts.length
    let bearings := (List.range (n - 1)).map fun i =>
      bearingF (ptAt pts i).latitude (ptAt pts i).longitude
        (ptAt pts (i + 1)).latitude (ptAt pts (i + 1)).longitude
    let distances := (List.range (n - 1)).map fun i =>
      distF (ptAt pts i).latitude (ptAt pts i).longitude
        (ptAt pts (i + 1)).latitude (ptAt pts (i + 1)).longitude
    let durations := (List.range (n - 1)).map fun i => codePairDuration pts i
    let bearingsFull := bearings ++ [bearings.getLastD 0]
    let distancesFull := distances ++ [distances.getLastD 0]
    let durationsFull := durations ++ [durations.getLastD 0]
    (List.range n).map fun i =>
      { latitude := (ptAt pts i).latitude
        longitude := (ptAt pts i).longitude
        time := (ptAt pts i).time
        bearing := bearingsFull.getD i 0
        distance_m := distancesFull.getD i 0
        duration_sec := durationsFull.getD i 0 }

/-- The pair duration C5 (and §3/§4.1 of the design) prescribes for the
transition from point `i` to `i+1`: timestamp of `i+1` minus timestamp of
`i`, or 0 when either timestamp is absent. -/
def claimedPairDuration (pts : List TrackPoint) (i : ℕ) : ℚ :=
  match (ptAt pts (i + 1)).time, (ptAt pts i).time with
  | some a, some b => a - b
  | _, _ => 0

/-- An injective stand-in for the geometric primitives, so that which point
pair a metric was computed from is visible in the output. -/
def latSum : ℚ → ℚ → ℚ → ℚ → ℚ := fun la _ lb _ => la + lb

/-- The failing input for C5: three points at 1-second-scale spacing with
timestamps 0, 10, 30. -/
def ptsC5 : List TrackPoint := [⟨0, 0, some 0⟩, ⟨1, 0, some 10⟩, ⟨3, 0, some 30⟩]

/-- C5 evaluated at the failing input: bearings and distances are attached to
the pairs (i, i+1) — `latSum` shows rows 0 and 1 carrying the values of pairs
(0,1) and (1,2) — but the attached durations are `[0, 10, 10]`: row 0 carries
a constant 0 and row 1 carries `t₁ - t₀` (the code's duration uses points
`i-1` and `i`), where the claim prescribes `t₁ - t₀ = 10` for pair (0,1) and
`t₂ - t₁ = 20` for pair (1,2). -/
theorem wind_c5_code_eval :
    (calculatePointMetrics latSum latSum ptsC5).map MetricPoint.duration_sec = [0, 10, 10]
    ∧ (calculatePointMetrics latSum latSum ptsC5).map MetricPoint.bearing = [1, 4, 4]
    ∧ (calculatePointMetrics latSum latSum ptsC5).map MetricPoint.distance_m = [1, 4, 4]
    ∧ claimedPairDuration ptsC5 0 = 10
    ∧ claimedPairDuration ptsC5 1 = 20
    ∧ ((0 : ℚ) ≠ 10 ∧ (10 : ℚ) ≠ 20) := by
  with_unfolding_all decide

/-! ### Claim C6 -/

/-- The circular bearing distance of `detect_angle_changes`:
`min((a-b) % 360, (b-a) % 360)`, which is `min(d, 360-d)` for
`d = |a-b| mod 360`. -/
def circDist (a b : ℚ) : ℚ := min (qmod (a - b) 360) (qmod (b - a) 360)

theorem circDist_self (a : ℚ) : circDist a a = 0 := by
  unfold circDist qmod
  norm_num

/-- The scanning loop of `detect_angle_changes`: `i` is the index of the head
of the remaining bearings, `start` the current stretch's start index and
`curB` its starting bearing.  On exhaustion the final stretch is emitted only
when `start < n - 1`. -/
def dacGo (tol : ℚ) : List ℚ → ℕ → ℕ → ℚ → List (ℕ × ℕ)
  | [], i, start, _ => if start < i - 1 then [(start, i - 1)] else []
  | b :: rest, i, start, curB =>
    if tol < circDist b curB then
      (start, i - 1) :: dacGo tol rest (i + 1) i b
    else dacGo tol rest (i + 1) start curB

/-- Embeds `core.segments.detector.detect_angle_changes`. -/
def detectAngleChanges (bs : List ℚ) (tol : ℚ) : List (ℕ × ℕ) :=
  if bs.length < 2 then []
  else dacGo tol (bs.drop 1) 1 0 (bs.getD 0 0)

/-- Counterexample to C6 as stated: on bearings `[0, 100]` with tolerance 15
the second point opens a new (final, single-point) stretch at index 1, but the
result is only `[(0, 0)]` — the final partial range is not emitted when it
consists of a single point, so no emitted range reaches the last index. -/
theorem wind_c6_counterexample :
    detectAngleChanges [0, 100] 15 = [(0, 0)]
    ∧ ∀ r ∈ detectAngleChanges [0, 100] 15, r.2 ≠ 1 := by
  with_unfolding_all decide

/-- The loop invariant of `dacGo`, proved for every suffix call: the emitted
stretches start at `start`, chain contiguously, stay within bounds, are
within-tolerance against their own starting bearing, are closed exactly at a
tolerance break, and the last stretch ends at `n - 1` or (when the final
single-point stretch is dropped) at `n - 2`. -/
theorem dacGo_spec (bs : List ℚ) (tol : ℚ) (htol : 0 ≤ tol) :
    ∀ (rest : List ℚ) (i start : ℕ),
      rest = bs.drop i → start < i → i ≤ bs.length →
      (∀ j, start ≤ j → j < i → circDist (bs.getD j 0) (bs.getD start 0) ≤ tol) →
      (dacGo tol rest i start (bs.getD start 0) = [] → start = bs.length - 1)
      ∧ (∀ q, (dacGo tol rest i start (bs.getD start 0)).head? = some q → q.1 = start)
      ∧ List.Chain' (fun q r => r.1 = q.2 + 1) (dacGo tol rest i start (bs.getD start 0))
      ∧ (∀ q ∈ dacGo tol rest i start (bs.getD start 0),
          start ≤ q.1 ∧ q.1 ≤ q.2 ∧ q.2 < bs.length)
      ∧ (∀ q ∈ dacGo tol rest i start (bs.getD start 0),
          ∀ j, q.1 ≤ j → j ≤ q.2 → circDist (bs.getD j 0) (bs.getD q.1 0) ≤ tol)
      ∧ (∀ q ∈ dacGo tol rest i start (bs.getD start 0),
          q.2 + 1 < bs.length → tol < circDist (bs.getD (q.2 + 1) 0) (bs.getD q.1 0))
      ∧ (∀ q, (dacGo tol rest i start (bs.getD start 0)).getLast? = some q →
          q.2 = bs.length - 1 ∨ q.2 = bs.length - 2) := by
  intro rest
  induction rest with
  | nil =>
    intro i start hdrop hsi hin hinv
    have hi : i = bs.length := by
      have hle : bs.length ≤ i := List.drop_eq_nil_iff.mp hdrop.symm
      omega
    subst hi
    unfold dacGo
    by_cases hfin : start < bs.length - 1
    · rw [if_pos hfin]
      refine ⟨by simp, ?_, ?_, ?_, ?_, ?_, ?_⟩
      · intro q hq
        simp only [List.head?_cons, Option.some.injEq] at hq
        subst hq
        rfl
      · simp
      · intro q hq
        simp at hq
        subst hq
        exact ⟨le_refl _, by omega, by omega⟩
      · intro q hq j hj1 hj2
        simp at hq
        subst hq
        exact hinv j hj1 (by omega)
      · intro q hq hlt
        simp at hq
        subst hq
        omega
      · intro q hq
        simp only [List.getLast?_singleton, Option.some.injEq] at hq
        subst hq
        left
        rfl
    · rw [if_neg hfin]
      refine ⟨fun _ => by omega, by simp, by simp, by simp, by simp, by simp, by simp⟩
  | cons b rest ih =>
    intro i start hdrop hsi hin hinv
    have hi : i < bs.length := by
      by_contra hcon
      rw [List.drop_eq_nil_of_le (by omega)] at hdrop
      simp at hdrop
    have hget : bs.drop i = bs.getD i 0 :: bs.drop (i + 1) := by
      rw [List.getD_eq_getElem bs 0 hi]
      exact List.drop_eq_getElem_cons hi
    rw [hget] at hdrop
    have hpair := (List.cons.injEq _ _ _ _).mp hdrop.symm
    have hb : b = bs.getD i 0 := hpair.1.symm
    have hrest : rest = bs.drop (i + 1) := hpair.2.symm
    unfold dacGo
    by_cases hbreak : tol < circDist b (bs.getD start 0)
    · rw [if_pos hbreak]
      have hinv2 : ∀ j, i ≤ j → j < i + 1 → circDist (bs.getD j 0) (bs.getD i 0) ≤ tol := by
        intro j hj1 hj2
        have hj : j = i := by omega
        subst hj
        rw [circDist_self]
        exact htol
      subst hb
      obtain ⟨ihnil, ihhead, ihchain, ihbounds, ihtol, ihbreak, ihlast⟩ :=
        ih (i + 1) i hrest (by omega) (by omega) hinv2
      refine ⟨by simp, ?_, ?_, ?_, ?_, ?_, ?_⟩
      · intro q hq
        simp at hq
        subst hq
        rfl
      · rw [List.chain'_cons']
        refine ⟨?_, ihchain⟩
        intro q hq
        have := ihhead q hq
        simp [this]
        omega
      · intro q hq
        rcases List.mem_cons.mp hq with hq | hq
        · subst hq
          exact ⟨le_refl _, by omega, by omega⟩
        · obtain ⟨hq1, hq2, hq3⟩ := ihbounds q hq
          exact ⟨by omega, hq2, hq3⟩
      · intro q hq j hj1 hj2
        rcases List.mem_cons.mp hq with hq | hq
        · subst hq
          exact hinv j hj1 (by omega)
        · exact ihtol q hq j hj1 hj2
      · intro q hq hlt
        rcases List.mem_cons.mp hq with hq | hq
        · subst hq
          have : start ≤ i - 1 := by omega
          simpa [Nat.sub_add_cancel (by omega : 1 ≤ i)] using hbreak
        · exact ihbreak q hq hlt
      · intro q hq
        cases hgl : (dacGo tol rest (i + 1) i (bs.getD i 0)).getLast? with
        | none =>
          have hnil : dacGo tol rest (i + 1) i (bs.getD i 0) = [] :=
            List.getLast?_eq_none_iff.mp hgl
          have hstart := ihnil hnil
          rw [hnil] at hq
          simp at hq
          subst hq
          right
          omega
        | some q2 =>
          have hne : dacGo tol rest (i + 1) i (bs.getD i 0) ≠ [] := by
            intro hcon
            rw [hcon] at hgl
            simp at hgl
          have hq2 : (dacGo tol rest (i + 1) i (bs.getD i 0)).getLast? = some q := by
            obtain ⟨x, xs, hxs⟩ := List.exists_cons_of_ne_nil hne
            rw [hxs] at hq ⊢
            rwa [List.getLast?_cons_cons] at hq
          rw [hgl] at hq2
          simp only [Option.some.injEq] at hq2
          subst hq2
          exact ihlast _ hgl
    · rw [if_neg hbreak]
      have hinv2 : ∀ j, start ≤ j → j < i + 1 →
          circDist (bs.getD j 0) (bs.getD start 0) ≤ tol := by
        intro j hj1 hj2
        by_cases hj : j < i
        · exact hinv j hj1 hj
        · have hji : j = i := by omega
          subst hji
          rw [← hb]
          exact le_of_not_lt hbreak
      subst hb
      exact ih (i + 1) start hrest (by omega) (by omega) hinv2

/-- C6 as amended: degenerate input (fewer than 2 points) yields no ranges;
otherwise, for a nonnegative tolerance (the validated domain is (0, 180]), the
detector returns a nonempty list of ranges that starts at index 0, chains
contiguously (hence disjoint and order-preserving), keeps every index of a
range within the circular tolerance of the range's starting bearing, opens a
new range exactly at an index that exceeds the tolerance (the previous range
closing at the prior index), and emits the final partial range whenever it
spans at least two points: the last emitted range ends at `n-1`, or at `n-2`
when the final range is the single breaking point `n-1`, which is dropped. -/
theorem wind_c6_stretches (bs : List ℚ) (tol : ℚ) (htol : 0 ≤ tol) :
    (bs.length < 2 → detectAngleChanges bs tol = [])
    ∧ (2 ≤ bs.length →
        detectAngleChanges bs tol ≠ []
        ∧ (∀ q, (detectAngleChanges bs tol).head? = some q → q.1 = 0)
        ∧ List.Chain' (fun q r => r.1 = q.2 + 1) (detectAngleChanges bs tol)
        ∧ (∀ q ∈ detectAngleChanges bs tol, q.1 ≤ q.2 ∧ q.2 < bs.length)
        ∧ (∀ q ∈ detectAngleChanges bs tol,
            ∀ j, q.1 ≤ j → j ≤ q.2 → circDist (bs.getD j 0) (bs.getD q.1 0) ≤ tol)
        ∧ (∀ q ∈ detectAngleChanges bs tol,
            q.2 + 1 < bs.length → tol < circDist (bs.getD (q.2 + 1) 0) (bs.getD q.1 0))
        ∧ (∀ q, (detectAngleChanges bs tol).getLast? = some q →
            q.2 = bs.length - 1
            ∨ (q.2 = bs.length - 2
                ∧ tol < circDist (bs.getD (bs.length - 1) 0) (bs.getD q.1 0)))) := by
  constructor
  · intro hlt
    unfold detectAngleChanges
    rw [if_pos hlt]
  · intro hge
    have hnotlt : ¬ bs.length < 2 := by omega
    have hinv : ∀ j, 0 ≤ j → j < 1 → circDist (bs.getD j 0) (bs.getD 0 0) ≤ tol := by
      intro j _ hj
      have hj0 : j = 0 := by omega
      subst hj0
      rw [circDist_self]
      exact htol
    obtain ⟨hnil, hhead, hchain, hbounds, htolr, hbreakr, hlast⟩ :=
      dacGo_spec bs tol htol (bs.drop 1) 1 0 rfl (by omega) (by omega) hinv
    have hne : dacGo tol (bs.drop 1) 1 0 (bs.getD 0 0) ≠ [] := by
      intro hcon
      have := hnil hcon
      omega
    unfold detectAngleChanges
    rw [if_neg hnotlt]
    refine ⟨hne, hhead, hchain, fun q hq => ⟨(hbounds q hq).2.1, (hbounds q hq).2.2⟩,
      htolr, hbreakr, ?_⟩
    intro q hq
    rcases hlast q hq with h1 | h2
    · exact Or.inl h1
    · by_cases hq2 : q.2 = bs.length - 1
      · exact Or.inl hq2
      · refine Or.inr ⟨h2, ?_⟩
        have hlt : q.2 + 1 < bs.length := by omega
        have := hbreakr q (List.mem_of_mem_getLast? hq) hlt
        have hq21 : q.2 + 1 = bs.length - 1 := by omega
        rwa [hq21] at this

/-- Witness for the amended C6 on bearings `[10, 12, 100]` with tolerance 15:
one stretch `(0, 1)` is emitted, the final single-point stretch at index 2
being dropped after its justified break. -/
theorem wind_c6_witness :
    ([(10 : ℚ), 12, 100].length < 2 → detectAngleChanges [10, 12, 100] 15 = [])
    ∧ (2 ≤ [(10 : ℚ), 12, 100].length →
        detectAngleChanges [10, 12, 100] 15 ≠ []
        ∧ (∀ q, (detectAngleChanges [10, 12, 100] 15).head? = some q → q.1 = 0)
        ∧ List.Chain' (fun q r => r.1 = q.2 + 1) (detectAngleChanges [10, 12, 100] 15)
        ∧ (∀ q ∈ detectAngleChanges [10, 12, 100] 15,
            q.1 ≤ q.2 ∧ q.2 < [(10 : ℚ), 12, 100].length)
        ∧ (∀ q ∈ detectAngleChanges [10, 12, 100] 15,
            ∀ j, q.1 ≤ j → j ≤ q.2 →
              circDist ([(10 : ℚ), 12, 100].getD j 0) ([(10 : ℚ), 12, 100].getD q.1 0) ≤ 15)
        ∧ (∀ q ∈ detectAngleChanges [10, 12, 100] 15,
            q.2 + 1 < [(10 : ℚ), 12, 100].length →
              15 < circDist ([(10 : ℚ), 12, 100].getD (q.2 + 1) 0)
                ([(10 : ℚ), 12, 100].getD q.1 0))
        ∧ (∀ q, (detectAngleChanges [10, 12, 100] 15).getLast? = some q →
            q.2 = [(10 : ℚ), 12, 100].length - 1
            ∨ (q.2 = [(10 : ℚ), 12, 100].length - 2
                ∧ 15 < circDist ([(10 : ℚ), 12, 100].getD ([(10 : ℚ), 12, 100].length - 1) 0)
                  ([(10 : ℚ), 12, 100].getD q.1 0)))) :=
  wind_c6_stretches [10, 12, 100] 15 (by norm_num)

/-! ### Claim C8 -/

/-- Embeds `core.models.segment.Segment` (the geometric fields; the optional wind
fields are absent at build time). -/
structure Segment where
  start_time : Option ℚ
  end_time : Option ℚ
  start_idx : ℕ
  end_idx : ℕ
  bearing : ℚ
  distance : ℚ
  duration : ℚ
  avg_speed_knots : ℚ
  point_count : ℕ
deriving DecidableEq, Repr

/-- Default row for list indexing. -/
def mpDefault : MetricPoint := ⟨0, 0, none, 0, 0, 0⟩

/-- Embeds `core.segments.detector.build_segments`: one `Segment` per index range of
at least 2 points, with summed distance, wall-clock duration (falling back to
summed per-step durations when either endpoint timestamp is absent), average
speed in knots (`METERS_PER_SECOND_TO_KNOTS = 1.94384`, zero speed guarded on
nonpositive duration), and the bearing recorded at the start of the range. -/
def buildSegments (rows : List MetricPoint) (stretches : List (ℕ × ℕ)) :
    List Segment :=
  stretches.filterMap fun se =>
    if se.2 ≤ se.1 then none
    else
      let data := (rows.drop se.1).take (se.2 + 1 - se.1)
      if data.length < 2 then none
      else
        let total_distance := (data.map MetricPoint.distance_m).sum
        let st := (data.headD mpDefault).time
        let en := (data.getLastD mpDefault).time
        let total_duration :=
          match st, en with
          | some a, some b => b - a
          | _, _ => (data.map MetricPoint.duration_sec).sum
        let avg_speed_knots :=
          if 0 < total_duration then total_distance / total_duration * (194384/100000)
          else 0
        some { start_time := st
               end_time := en
               start_idx := se.1
               end_idx := se.2
               bearing := (data.headD mpDefault).bearing
               distance := total_distance
               duration := total_duration
               avg_speed_knots := avg_speed_knots
               point_count := data.length }

/-- Embeds `core.segments.detector.filter_valid_segments`. -/
def filterValidSegments (segs : List Segment)
    (min_distance_meters min_duration_seconds : ℚ) : List Segment :=
  segs.filter fun s =>
    decide (min_distance_meters ≤ s.distance) && decide (min_duration_seconds ≤ s.duration)

/-- Embeds `core.validation.validate_and_clean_segments`: drop rows with impossible
values (the NaN cleanup has no rational counterpart; all columns exist). -/
def validateAndCleanSegments (segs : List Segment) : List Segment :=
  if segs.isEmpty then segs
  else segs.filter fun s =>
    decide (0 ≤ s.distance) && decide (0 ≤ s.duration)
      && decide (0 ≤ s.bearing) && decide (s.bearing ≤ 360)
      && decide (0 ≤ s.avg_speed_knots) && decide (s.avg_speed_knots ≤ 200)

instance : DecidableEq (Except String Unit) := fun a b =>
  match a, b with
  | Except.error x, Except.error y =>
    if h : x = y then isTrue (by rw [h]) else isFalse (by simp [h])
  | Except.ok x, Except.ok y =>
    match x, y with
    | (), () => isTrue rfl
  | Except.error _, Except.ok _ => isFalse (by simp)
  | Except.ok _, Except.error _ => isFalse (by simp)

/-- Embeds `core.validation.validate_gpx_dataframe` restricted to what is
representable over typed track points: empty input, coordinate ranges, and
the 2-point minimum (None/missing-column/NaN checks have no counterpart). -/
def validateGpxDataframe (pts : List TrackPoint) : Except String Unit :=
  if pts.isEmpty then Except.error "DataFrame is empty"
  else if ¬ (pts.all fun q => decide (-90 ≤ q.latitude) && decide (q.latitude ≤ 90)) then
    Except.error "invalid latitude values"
  else if ¬ (pts.all fun q => decide (-180 ≤ q.longitude) && decide (q.longitude ≤ 180)) then
    Except.error "invalid longitude values"
  else if pts.length < 2 then Except.error "Need at least 2 data points"
  else Except.ok ()

/-- Embeds `core.validation.validate_parameter_ranges` for the three parameters the
detector passes, checked in the code's order: `angle_tolerance ∈ (0, 180]`,
`min_distance ∈ [0, 10000]`, `min_duration ∈ [0, 3600]`. -/
def validateParameterRanges (angle_tolerance min_distance min_duration : ℚ) :
    Except String Unit :=
  if ¬ (0 < angle_tolerance ∧ angle_tolerance ≤ 180) then
    Except.error "Angle tolerance must be 0-180"
  else if ¬ (0 ≤ min_distance ∧ min_distance ≤ 10000) then
    Except.error "Min distance must be 0-10000m"
  else if ¬ (0 ≤ min_duration ∧ min_duration ≤ 3600) then
    Except.error "Min duration must be 0-3600s"
  else Except.ok ()

/-- Embeds `core.segments.detector.find_consistent_angle_stretches`.  The `try`
block's `ValidationError` handler returns an empty dataframe, embedded as the
empty list (an exception never escapes this function); the geometric
primitives are parameters as in `calculatePointMetrics`. -/
def findConsistentAngleStretches (bearingF distF : ℚ → ℚ → ℚ → ℚ → ℚ)
    (pts : List TrackPoint)
    (angle_tolerance min_duration_seconds min_distance_meters : ℚ) : List Segment :=
  match validateGpxDataframe pts with
  | Except.error _ => []
  | Except.ok _ =>
    match validateParameterRanges angle_tolerance min_distance_meters
        min_duration_seconds with
    | Except.error _ => []
    | Except.ok _ =>
      if pts.length < 2 then []
      else
        let dfm := calculatePointMetrics bearingF distF pts
        let stretches := detectAngleChanges (dfm.map MetricPoint.bearing) angle_tolerance
        if stretches.isEmpty then []
        else
          let segs := buildSegments dfm stretches
          if segs.isEmpty then []
          else
            let valid := filterValidSegments segs min_distance_meters min_duration_seconds
            if valid.isEmpty then []
            else validateAndCleanSegments valid

/-- Counterexample to C8 as stated: two valid points with
`angle_tolerance = 200` (outside (0, 180]).  The range check fails — but the
failure is caught inside segment detection, which returns the empty segment
collection: the caller receives a normal empty result, indistinguishable from
a degenerate-data outcome, not a propagated rejection. -/
theorem wind_c8_counterexample :
    validateParameterRanges 200 50 10 = Except.error "Angle tolerance must be 0-180"
    ∧ findConsistentAngleStretches latSum latSum
        [⟨0, 0, some 0⟩, ⟨1, 0, some 10⟩] 200 10 50 = [] := by
  with_unfolding_all decide

/-- C8 as amended: an out-of-range parameter makes the range check fail before
any metric computation, but `find_consistent_angle_stretches` catches the
failure and returns the empty segment collection (for any track input and any
geometric primitives) instead of propagating a rejection to the caller. -/
theorem wind_c8_validation (bearingF distF : ℚ → ℚ → ℚ → ℚ → ℚ)
    (pts : List TrackPoint) (angle_tolerance min_duration min_distance : ℚ) (e : String)
    (herr : validateParameterRanges angle_tolerance min_distance min_duration
      = Except.error e) :
    findConsistentAngleStretches bearingF distF pts
      angle_tolerance min_duration min_distance = [] := by
  unfold findConsistentAngleStretches
  cases hgpx : validateGpxDataframe pts with
  | error e2 => rfl
  | ok u => rw [herr]

/-- Witness for the amended C8 at a concrete out-of-range `min_distance`
(20000 > 10000). -/
theorem wind_c8_witness :
    findConsistentAngleStretches latSum latSum
      [⟨0, 0, some 0⟩, ⟨1, 0, some 10⟩] 15 10 20000 = [] :=
  wind_c8_validation latSum latSum [⟨0, 0, some 0⟩, ⟨1, 0, some 10⟩] 15 10 20000
    "Min distance must be 0-10000m" (by with_unfolding_all decide)

end FoilLab
